import Mathlib

/-!
Verification of the MSA feature-generation layer
(`chai_lab/data/features/generators/msa.py`).

Tensors of shape `[batch, depth, tokens]` are embedded as nested lists
(`Grid α`).  uint8 arithmetic is embedded as `Nat` with explicit `% 256`
where the source accumulates in the uint8 dtype; floating-point values are
embedded as `ℚ` (for exact profile/mean arithmetic) or `ℝ` (for the
`arctan` deletion scaling).  Fallible construction returns `Option`.
-/

/-- A `[batch, depth, tokens]` tensor embedded as nested lists. -/
abbrev Grid (α : Type) : Type := List (List (List α))

/-- Elementwise map over a grid (models an elementwise tensor op). -/
def gridMap {α β : Type} (f : α → β) (g : Grid α) : Grid β :=
  g.map (fun batchEl => batchEl.map (fun row => row.map f))

/-- Elementwise binary op over two grids of matching shape
(models broadcasting-free elementwise tensor ops such as `masked_fill`). -/
def gridZipWith {α β γ : Type} (f : α → β → γ) (a : Grid α) (b : Grid β) : Grid γ :=
  List.zipWith (fun xa xb => List.zipWith (fun ra rb => List.zipWith f ra rb) xa xb) a b

/-- Entry of a grid at batch `b`, depth-row `d`, token position `t`. -/
def gridGet {α : Type} (g : Grid α) (b d t : ℕ) (dflt : α) : α :=
  ((g.getD b []).getD d []).getD t dflt

/-- The grid is a rectangular `[B, D, T]` tensor. -/
def GridDims {α : Type} (g : Grid α) (B D T : ℕ) : Prop :=
  g.length = B ∧ ∀ x ∈ g, x.length = D ∧ ∀ r ∈ x, r.length = T

instance {α : Type} (g : Grid α) (B D T : ℕ) : Decidable (GridDims g B D T) :=
  decidable_of_iff (g.length = B ∧ ∀ x ∈ g, x.length = D ∧ ∀ r ∈ x, r.length = T) Iff.rfl

/-- A rank-2 `[B, T]` result (TOKEN-level features collapse the depth dim). -/
def TableDims {α : Type} (g : List (List α)) (B T : ℕ) : Prop :=
  g.length = B ∧ ∀ x ∈ g, x.length = T

instance {α : Type} (g : List (List α)) (B T : ℕ) : Decidable (TableDims g B T) :=
  decidable_of_iff (g.length = B ∧ ∀ x ∈ g, x.length = T) Iff.rfl

/-- `FeatureType` from `chai_lab.data.features.feature_type` (the two values
used in this module). -/
inductive FeatureType where | MSA | TOKEN deriving DecidableEq

/-- `EncodingType` from the generator base module (the two values used here). -/
inductive EncodingType where | ONE_HOT | IDENTITY deriving DecidableEq

/-- Static configuration passed by each generator to `FeatureGenerator.__init__`. -/
structure GeneratorConfig where (ty : FeatureType) (encodingTy : EncodingType) (canMask : Bool) (numClasses : ℕ) (mult : ℕ) deriving DecidableEq

/-- `MSAFeatureGenerator.__init__`: ONE_HOT over the residue-type vocabulary
(`num_res_ty = len(residue_types_with_nucleotides_order)`, an external
constant, kept as a parameter). -/
def msaFeatureGeneratorConfig (numResTy : ℕ) : GeneratorConfig :=
  ⟨.MSA, .ONE_HOT, false, numResTy, 1⟩

/-- `MSAHasDeletionGenerator.__init__`. -/
def msaHasDeletionGeneratorConfig : GeneratorConfig :=
  ⟨.MSA, .IDENTITY, false, 1, 1⟩

/-- `MSADeletionValueGenerator.__init__`. -/
def msaDeletionValueGeneratorConfig : GeneratorConfig :=
  ⟨.MSA, .IDENTITY, false, 1, 1⟩

/-- `MSAProfileGenerator.__init__` (no `mult` argument is passed; the external
base class defaults it to 1). -/
def msaProfileGeneratorConfig (numResTy : ℕ) : GeneratorConfig :=
  ⟨.TOKEN, .IDENTITY, false, numResTy, 1⟩

/-- `MSADeletionMeanGenerator.__init__`. -/
def msaDeletionMeanGeneratorConfig : GeneratorConfig :=
  ⟨.TOKEN, .IDENTITY, false, 1, 1⟩

/-- `IsPairedMSAGenerator.__init__`. -/
def isPairedMSAGeneratorConfig : GeneratorConfig :=
  ⟨.MSA, .IDENTITY, false, 1, 1⟩

/-- The configuration `MSADataSourceGenerator.__init__` forwards to the base
class when its assertion passes. -/
def msaDataSourceGeneratorConfig (numClasses : ℕ) : GeneratorConfig :=
  ⟨.MSA, .ONE_HOT, true, numClasses, 1⟩

/-- `max(msa_dataset_source_to_int.values()) + 1`: the known source-vocabulary
size.  The dictionary lives in `chai_lab.data.parsing.msas.data_source`
(outside the given sources), so its list of integer codes is a parameter. -/
def sourceVocabSize (sourceToInt : List ℕ) : ℕ :=
  sourceToInt.foldl max 0 + 1

/-- `MSADataSourceGenerator.__init__`: asserts
`num_classes == max(msa_dataset_source_to_int.values()) + 1` and otherwise
forwards the configuration; an `assert` failure raises, modelled as `none`. -/
def msaDataSourceGeneratorInit (numClasses : ℕ) (sourceToInt : List ℕ) :
    Option GeneratorConfig :=
  if numClasses = sourceVocabSize sourceToInt then
    some (msaDataSourceGeneratorConfig numClasses)
  else
    none

/-- `MSAFeatureGenerator._generate`: returns `msa_tokens.unsqueeze(-1)`. -/
def msaFeatureGenerate (msa_tokens : Grid ℕ) : Grid (List ℕ) :=
  gridMap (fun x => [x]) msa_tokens

/-- `MSAHasDeletionGenerator._generate`:
`(msa_deletion_matrix > 0).unsqueeze(-1)`. -/
def msaHasDeletionGenerate (msa_deletion_matrix : Grid ℕ) : Grid (List Bool) :=
  gridMap (fun d => [decide (d > 0)]) msa_deletion_matrix

/-- The deletion-count scaling `2.0 / torch.pi * torch.arctan(d / 3.0)`
applied by `MSADeletionValueGenerator._generate`. -/
noncomputable def deletionScale (d : ℝ) : ℝ :=
  2 / Real.pi * Real.arctan (d / 3)

/-- `MSADeletionValueGenerator._generate`: elementwise scaling of the
float-converted deletion counts, then `unsqueeze(-1)`. -/
noncomputable def msaDeletionValueGenerate (msa_deletion_matrix : Grid ℕ) : Grid (List ℝ) :=
  gridMap (fun (d : ℕ) => [deletionScale (d : ℝ)]) msa_deletion_matrix

/-- The per-position column of (token, mask) pairs across the depth dim,
i.e. the data `scatter_add` accumulates for one `(batch, token)` slot. -/
def msaColumn (tB : List (List ℕ)) (mB : List (List Bool)) (t : ℕ) : List (ℕ × Bool) :=
  List.zipWith (fun tr mr => (tr.getD t 0, mr.getD t false)) tB mB

/-- Mask-weighted count of rows whose token equals class `k` at this column
(the amount `scatter_add` accumulates into bin `k`). -/
def scatterCountAt (cols : List (ℕ × Bool)) (k : ℕ) : ℕ :=
  cols.countP (fun p => p.2 && (p.1 == k))

/-- The `unnormalized_profile` bins for one `(batch, token)` slot:
`scatter_add` of the mask weights runs in the uint8 dtype of
`main_msa_tokens`, so each bin holds its count modulo 256. -/
def profileBins (numResTy : ℕ) (cols : List (ℕ × Bool)) : List ℕ :=
  (List.range numResTy).map (fun k => scatterCountAt cols k % 256)

/-- One `(batch, token)` slot of `MSAProfileGenerator._generate`: the uint8
bins, then `sum(-1)` (promoted to int64 by torch, hence exact over the
wrapped bins), `clamp_min_(1)`, and elementwise true division. -/
def profileAt (numResTy : ℕ) (cols : List (ℕ × Bool)) : List ℚ :=
  (profileBins numResTy cols).map
    (fun (c : ℕ) => (c : ℚ) / ((max (profileBins numResTy cols).sum 1 : ℕ) : ℚ))

/-- `MSAProfileGenerator._generate` over the whole batch: output shape
`[batch, tokens, num_res_ty]` (token count read off the tensor shape;
in the list embedding, off the first depth row). -/
def msaProfileGenerate (numResTy : ℕ) (main_msa_tokens : Grid ℕ)
    (main_msa_mask : Grid Bool) : List (List (List ℚ)) :=
  List.zipWith
    (fun tB mB =>
      (List.range (tB.headD []).length).map (fun t => profileAt numResTy (msaColumn tB mB t)))
    main_msa_tokens main_msa_mask

/-- Modelled from the spec: the true (no-wraparound) mask-weighted
residue-class count bins for one `(batch, token)` slot. -/
def trueProfileBins (numResTy : ℕ) (cols : List (ℕ × Bool)) : List ℕ :=
  (List.range numResTy).map (fun k => scatterCountAt cols k)

/-- Modelled from the spec: the true mask-weighted residue-class count
distribution, normalized by the clamp-at-1 total, with no uint8 wraparound
(the comparison point named by claim C4). -/
def trueProfileAt (numResTy : ℕ) (cols : List (ℕ × Bool)) : List ℚ :=
  (trueProfileBins numResTy cols).map
    (fun (c : ℕ) => (c : ℚ) / ((max (trueProfileBins numResTy cols).sum 1 : ℕ) : ℚ))

/-- The per-position column of (mask, deletion-count) pairs across the depth
dimension, as consumed by the deletion-mean reduction. -/
def delColumn (mB : List (List Bool)) (dB : List (List ℕ)) (t : ℕ) : List (Bool × ℕ) :=
  List.zipWith (fun mr dr => (mr.getD t false, dr.getD t 0)) mB dB

/-- Modelled from the spec: `masked_mean` from `chai_lab.utils.tensor_utils`
(not among the given sources) — the sum of (mask × value) divided by the sum
of the mask, where positions with zero valid rows produce zero rather than a
division by zero (denominator floored at 1). -/
def masked_mean (col : List (Bool × ℕ)) : ℚ :=
  ((col.map (fun (p : Bool × ℕ) => if p.1 then (p.2 : ℚ) else 0)).sum)
    / ((max (col.countP (fun p => p.1)) 1 : ℕ) : ℚ)

/-- `MSADeletionMeanGenerator._generate`: `masked_mean(mask, deletion.float(),
dim=1)` then `unsqueeze(-1)`; output shape `[batch, tokens, 1]`. -/
def msaDeletionMeanGenerate (main_msa_mask : Grid Bool)
    (main_msa_deletion_matrix : Grid ℕ) : List (List (List ℚ)) :=
  List.zipWith
    (fun mB dB =>
      (List.range (mB.headD []).length).map (fun t => [masked_mean (delColumn mB dB t)]))
    main_msa_mask main_msa_deletion_matrix

/-- `IsPairedMSAGenerator._generate`.  Note the source computes
`first_species = msa_species[..., :1]`, which slices the LAST (tokens)
dimension: each entry is compared with its own row's species at token
position 0, then `masked_fill` zeroes entries that are invalid or whose
species is the UNKNOWN sentinel (`UNKNOWN_SPECIES` is an external constant,
kept as the parameter `unknownSpecies`). -/
def isPairedMSAGenerate (msa_mask : Grid Bool) (msa_species : Grid ℤ)
    (unknownSpecies : ℤ) : Grid (List ℕ) :=
  List.zipWith
    (fun mB sB =>
      List.zipWith
        (fun mRow sRow =>
          List.zipWith
            (fun m s =>
              [if m && decide (s ≠ unknownSpecies) then
                  (if s = sRow.headD 0 then (1 : ℕ) else 0)
                else 0])
            mRow sRow)
        mB sB)
    msa_mask msa_species

/-- `MSADataSourceGenerator._generate`:
`msa_sequence_source.masked_fill(~msa_mask, self.num_classes)` then
`unsqueeze(-1)`. -/
def msaDataSourceGenerate (numClasses : ℕ) (msa_mask : Grid Bool)
    (msa_sequence_source : Grid ℕ) : Grid (List ℕ) :=
  gridZipWith (fun m s => [if m then s else numClasses]) msa_mask msa_sequence_source

/-! ### Helper lemmas about list access -/

theorem getD_map_of_lt {α β : Type} (f : α → β) (l : List α) (i : ℕ) (h : i < l.length)
    (da : α) (db : β) : (l.map f).getD i db = f (l.getD i da) := by
  rw [List.getD_eq_getElem (l.map f) db (by simpa using h), List.getD_eq_getElem l da h,
    List.getElem_map]

theorem getD_zipWith_of_lt {α β γ : Type} (f : α → β → γ) (l1 : List α) (l2 : List β)
    (i : ℕ) (h1 : i < l1.length) (h2 : i < l2.length) (da : α) (db : β) (dc : γ) :
    (List.zipWith f l1 l2).getD i dc = f (l1.getD i da) (l2.getD i db) := by
  have hz : i < (List.zipWith f l1 l2).length := by
    rw [List.length_zipWith]; omega
  rw [List.getD_eq_getElem _ dc hz, List.getD_eq_getElem l1 da h1,
    List.getD_eq_getElem l2 db h2, List.getElem_zipWith]

theorem getD_range_of_lt (n i : ℕ) (h : i < n) (d : ℕ) : (List.range n).getD i d = i := by
  rw [List.getD_eq_getElem _ d (by simpa using h)]
  exact List.getElem_range _ _

theorem headD_length_of_rect {α : Type} (l : List (List α)) (T : ℕ)
    (h : ∀ r ∈ l, r.length = T) (hl : 0 < l.length) : (l.headD []).length = T := by
  cases l with
  | nil => simp at hl
  | cons a t => exact h a (by simp)

theorem gridDims_row_len {α : Type} {g : Grid α} {B D T : ℕ} (h : GridDims g B D T)
    {b : ℕ} (hb : b < B) : (g.getD b []).length = D := by
  obtain ⟨h1, h2⟩ := h
  rw [List.getD_eq_getElem g [] (by omega)]
  exact (h2 _ (List.getElem_mem _)).1

theorem gridDims_cell_len {α : Type} {g : Grid α} {B D T : ℕ} (h : GridDims g B D T)
    {b d : ℕ} (hb : b < B) (hd : d < D) : ((g.getD b []).getD d []).length = T := by
  obtain ⟨h1, h2⟩ := h
  have hbl : b < g.length := by omega
  rw [List.getD_eq_getElem g [] hbl]
  have hrow := h2 _ (List.getElem_mem hbl)
  rw [List.getD_eq_getElem _ [] (by omega)]
  exact hrow.2 _ (List.getElem_mem _)

theorem gridGet_gridMap {α β : Type} (f : α → β) (g : Grid α) (B D T b d t : ℕ)
    (hg : GridDims g B D T) (hb : b < B) (hd : d < D) (ht : t < T) (da : α) (db : β) :
    gridGet (gridMap f g) b d t db = f (gridGet g b d t da) := by
  have h1 : b < g.length := by rw [hg.1]; exact hb
  have h2 : d < (g.getD b []).length := by rw [gridDims_row_len hg hb]; omega
  have h3 : t < ((g.getD b []).getD d []).length := by rw [gridDims_cell_len hg hb hd]; omega
  unfold gridGet gridMap
  rw [getD_map_of_lt _ g b h1 [] [], getD_map_of_lt _ _ d h2 [] [],
    getD_map_of_lt _ _ t h3 da db]

theorem gridGet_gridZipWith {α β γ : Type} (f : α → β → γ) (ga : Grid α) (gb : Grid β)
    (B D T b d t : ℕ) (ha : GridDims ga B D T) (hb2 : GridDims gb B D T)
    (hb : b < B) (hd : d < D) (ht : t < T) (da : α) (db : β) (dc : γ) :
    gridGet (gridZipWith f ga gb) b d t dc = f (gridGet ga b d t da) (gridGet gb b d t db) := by
  have h1a : b < ga.length := by rw [ha.1]; exact hb
  have h1b : b < gb.length := by rw [hb2.1]; exact hb
  have h2a : d < (ga.getD b []).length := by rw [gridDims_row_len ha hb]; omega
  have h2b : d < (gb.getD b []).length := by rw [gridDims_row_len hb2 hb]; omega
  have h3a : t < ((ga.getD b []).getD d []).length := by rw [gridDims_cell_len ha hb hd]; omega
  have h3b : t < ((gb.getD b []).getD d []).length := by rw [gridDims_cell_len hb2 hb hd]; omega
  unfold gridGet gridZipWith
  rw [getD_zipWith_of_lt _ ga gb b h1a h1b [] [] [],
    getD_zipWith_of_lt _ _ _ d h2a h2b [] [] [],
    getD_zipWith_of_lt _ _ _ t h3a h3b da db dc]

/-! ### Claim theorems (first group) -/

/-- C10: among the generators of this module, exactly `MSADataSourceGenerator`
is constructed with `can_mask=True`; every other generator is constructed
with `can_mask=False`. -/
theorem generators_can_mask_flags :
    (∀ n : ℕ, (msaFeatureGeneratorConfig n).canMask = false)
    ∧ msaHasDeletionGeneratorConfig.canMask = false
    ∧ msaDeletionValueGeneratorConfig.canMask = false
    ∧ (∀ n : ℕ, (msaProfileGeneratorConfig n).canMask = false)
    ∧ msaDeletionMeanGeneratorConfig.canMask = false
    ∧ isPairedMSAGeneratorConfig.canMask = false
    ∧ (∀ n : ℕ, (msaDataSourceGeneratorConfig n).canMask = true) :=
  ⟨fun _ => rfl, rfl, rfl, fun _ => rfl, rfl, rfl, fun _ => rfl⟩

/-- C8: `MSADataSourceGenerator` construction succeeds exactly when the
declared class count equals the known source-vocabulary size
(`max(msa_dataset_source_to_int.values()) + 1`), and when it succeeds the
stored class count is exactly the declared one (never coerced). -/
theorem msaDataSource_init_validates :
    ∀ (n : ℕ) (table : List ℕ),
      ((msaDataSourceGeneratorInit n table).isSome ↔ n = sourceVocabSize table)
      ∧ (msaDataSourceGeneratorInit n table).map GeneratorConfig.numClasses
          = if n = sourceVocabSize table then some n else none := by
  intro n table
  unfold msaDataSourceGeneratorInit
  by_cases h : n = sourceVocabSize table <;> simp [h, msaDataSourceGeneratorConfig]

/-- C1 (code bug): on `msa_mask = [[[T,T],[T,T]]]`,
`msa_species = [[[5,5],[7,7]]]`, `UNKNOWN_SPECIES = 0`, the code marks every
entry of row 1 as paired (because `msa_species[..., :1]` compares each entry
with its own row's species at token position 0), although row 1's species
(7) differs from row 0's species (5) at both positions — the claim and spec
require `false` there since pairing is defined relative to depth-row 0. -/
theorem isPairedMSA_row0_code_bug :
    isPairedMSAGenerate [[[true, true], [true, true]]] [[[(5 : ℤ), 5], [7, 7]]] 0
      = [[[[1], [1]], [[1], [1]]]]
    ∧ gridGet [[[(5 : ℤ), 5], [7, 7]]] 0 1 1 0 ≠ gridGet [[[(5 : ℤ), 5], [7, 7]]] 0 0 1 0 := by
  constructor
  · rfl
  · decide

/-- C2 counterexample: with `num_classes = 5` (matching the assert), a
masked-out position with source code 2 is overwritten to `num_classes = 5`,
not to `num_classes - 1 = 4` as the claim states. -/
theorem msaDataSource_sentinel_counterexample :
    msaDataSourceGenerate 5 [[[false]]] [[[2]]] = [[[[5]]]]
    ∧ (5 : ℕ) ≠ 5 - 1 := by
  constructor
  · rfl
  · decide

/-- C2 amended: every masked-out (invalid) position's output equals exactly
`num_classes` (one past the recognized source range `0..num_classes-1`),
valid positions keep their original source code, and a trailing singleton
dimension is appended. -/
theorem msaDataSource_sentinel_amended :
    ∀ (n B D T : ℕ) (mask : Grid Bool) (source : Grid ℕ) (b d t : ℕ),
      GridDims mask B D T → GridDims source B D T → b < B → d < D → t < T →
      gridGet (msaDataSourceGenerate n mask source) b d t []
        = [if gridGet mask b d t false then gridGet source b d t 0 else n] := by
  intro n B D T mask source b d t hm hs hb hd ht
  unfold msaDataSourceGenerate
  rw [gridGet_gridZipWith _ mask source B D T b d t hm hs hb hd ht false 0 []]

theorem msaDataSource_sentinel_amended_witness :
    gridGet (msaDataSourceGenerate 5 [[[false]]] [[[2]]]) 0 0 0 []
      = [if gridGet [[[false]]] 0 0 0 false then gridGet [[[(2 : ℕ)]]] 0 0 0 0 else 5] :=
  msaDataSource_sentinel_amended 5 1 1 1 [[[false]]] [[[2]]] 0 0 0
    (by decide) (by decide) (by decide) (by decide) (by decide)

/-! ### Helper lemmas for the profile generator -/

theorem sum_map_add_nat {α : Type} (l : List α) (f g : α → ℕ) :
    (l.map (fun x => f x + g x)).sum = (l.map f).sum + (l.map g).sum := by
  induction l with
  | nil => simp
  | cons a t ih => simp [ih]; omega

theorem sum_indicator_range (n t : ℕ) :
    ((List.range n).map (fun k => if t = k then 1 else 0)).sum = if t < n then 1 else 0 := by
  induction n with
  | zero => simp
  | succ m ih =>
    rw [List.range_succ, List.map_append, List.sum_append, ih]
    by_cases h2 : t = m
    · subst h2
      simp
    · by_cases h1 : t < m
      · have hlt : t < m + 1 := by omega
        simp [h1, h2, hlt]
      · have hge : ¬ t < m + 1 := by omega
        simp [h1, h2, hge]

theorem scatterCountAt_le (cols : List (ℕ × Bool)) (k : ℕ) :
    scatterCountAt cols k ≤ cols.countP (fun p => p.2) := by
  apply List.countP_mono_left
  intro a _ hk
  simp only [Bool.and_eq_true] at hk
  exact hk.1

theorem sum_scatterCountAt (cols : List (ℕ × Bool)) (n : ℕ)
    (h : ∀ p ∈ cols, p.2 = true → p.1 < n) :
    ((List.range n).map (fun k => scatterCountAt cols k)).sum
      = cols.countP (fun p => p.2) := by
  induction cols with
  | nil => simp [scatterCountAt]
  | cons a t ih =>
    have ht : ∀ p ∈ t, p.2 = true → p.1 < n := fun p hp => h p (List.mem_cons_of_mem a hp)
    have hstep : ((List.range n).map (fun k => scatterCountAt (a :: t) k)).sum
        = ((List.range n).map (fun k => scatterCountAt t k)).sum
          + ((List.range n).map (fun k => if a.2 && (a.1 == k) then 1 else 0)).sum := by
      rw [← sum_map_add_nat]
      congr 1
      apply List.map_congr_left
      intro k _
      simp [scatterCountAt, List.countP_cons]
    rw [hstep, ih ht]
    have hind : ((List.range n).map (fun k => if a.2 && (a.1 == k) then 1 else 0)).sum
        = if a.2 then 1 else 0 := by
      cases ha2 : a.2 with
      | false => simp
      | true =>
        have h1 : a.1 < n := h a (List.mem_cons_self a t) ha2
        have hcong : ((List.range n).map (fun k => if (a.1 == k) then 1 else 0))
            = ((List.range n).map (fun k => if a.1 = k then 1 else 0)) := by
          apply List.map_congr_left
          intro k _
          simp [beq_iff_eq]
        simp only [ha2, Bool.true_and, hcong, sum_indicator_range, if_pos h1]
        simp
    rw [hind, List.countP_cons]

theorem list_sum_div_nat (l : List ℕ) (q : ℚ) :
    (l.map (fun (c : ℕ) => (c : ℚ) / q)).sum = ((l.sum : ℕ) : ℚ) / q := by
  induction l with
  | nil => simp
  | cons a t ih =>
    simp only [List.map_cons, List.sum_cons, ih]
    push_cast
    rw [add_div]

theorem profileAt_eq_trueProfileAt (n : ℕ) (cols : List (ℕ × Bool))
    (h255 : cols.countP (fun p => p.2) ≤ 255) :
    profileAt n cols = trueProfileAt n cols := by
  have hbins : profileBins n cols = trueProfileBins n cols := by
    unfold profileBins trueProfileBins
    apply List.map_congr_left
    intro k _
    exact Nat.mod_eq_of_lt (lt_of_le_of_lt (scatterCountAt_le cols k) (by omega))
  unfold profileAt trueProfileAt
  rw [hbins]

theorem profileAt_nonneg (n : ℕ) (cols : List (ℕ × Bool)) :
    ∀ q ∈ profileAt n cols, 0 ≤ q := by
  intro q hq
  unfold profileAt at hq
  obtain ⟨c, _, rfl⟩ := List.mem_map.1 hq
  exact div_nonneg (by positivity) (by positivity)

theorem profileAt_sum_eq (n : ℕ) (cols : List (ℕ × Bool))
    (hvoc : ∀ p ∈ cols, p.2 = true → p.1 < n)
    (h255 : cols.countP (fun p => p.2) ≤ 255) :
    (profileAt n cols).sum = if 0 < cols.countP (fun p => p.2) then 1 else 0 := by
  rw [profileAt_eq_trueProfileAt n cols h255]
  unfold trueProfileAt
  rw [list_sum_div_nat]
  have hsum : (trueProfileBins n cols).sum = cols.countP (fun p => p.2) := by
    unfold trueProfileBins
    exact sum_scatterCountAt cols n hvoc
  rw [hsum]
  by_cases hV : 0 < cols.countP (fun p => p.2)
  · have hmax : max (cols.countP (fun p => p.2)) 1 = cols.countP (fun p => p.2) := by omega
    rw [hmax, if_pos hV]
    have hne : ((cols.countP (fun p => p.2) : ℕ) : ℚ) ≠ 0 :=
      Nat.cast_ne_zero.mpr (by omega)
    exact div_self hne
  · have hz : cols.countP (fun p => p.2) = 0 := by omega
    rw [hz]
    simp

theorem gridDims_rows {α : Type} {g : Grid α} {B D T : ℕ} (h : GridDims g B D T)
    {b : ℕ} (hb : b < B) : ∀ r ∈ g.getD b [], r.length = T := by
  have hbl : b < g.length := by rw [h.1]; exact hb
  rw [List.getD_eq_getElem g [] hbl]
  exact (h.2 _ (List.getElem_mem hbl)).2

theorem msaColumn_vocab {n T : ℕ} (tB : List (List ℕ)) (mB : List (List Bool)) (t : ℕ)
    (hrow : ∀ r ∈ tB, r.length = T) (ht : t < T)
    (hval : ∀ r ∈ tB, ∀ c ∈ r, c < n) :
    ∀ p ∈ msaColumn tB mB t, p.2 = true → p.1 < n := by
  intro p hp _
  unfold msaColumn at hp
  obtain ⟨i, hi, hip⟩ := List.mem_iff_getElem.1 hp
  rw [List.getElem_zipWith] at hip
  have hiT : i < tB.length := by
    rw [List.length_zipWith] at hi
    omega
  have hmem : tB[i] ∈ tB := List.getElem_mem hiT
  have htl : t < (tB[i]).length := by rw [hrow _ hmem]; omega
  subst hip
  show (tB[i]).getD t 0 < n
  rw [List.getD_eq_getElem _ 0 htl]
  exact hval _ hmem _ (List.getElem_mem htl)

theorem countP_msaColumn_pos_iff (tB : List (List ℕ)) (mB : List (List Bool)) (t D : ℕ)
    (hTB : tB.length = D) (hMB : mB.length = D) :
    (0 < (msaColumn tB mB t).countP (fun p => p.2))
      ↔ ∃ d, d < D ∧ (mB.getD d []).getD t false = true := by
  rw [List.countP_pos_iff]
  constructor
  · rintro ⟨p, hp, hp2⟩
    unfold msaColumn at hp
    obtain ⟨i, hi, hip⟩ := List.mem_iff_getElem.1 hp
    rw [List.getElem_zipWith] at hip
    have hiD : i < D := by
      rw [List.length_zipWith] at hi
      omega
    refine ⟨i, hiD, ?_⟩
    rw [List.getD_eq_getElem mB [] (by omega)]
    subst hip
    simpa using hp2
  · rintro ⟨d, hd, hdt⟩
    refine ⟨((tB.getD d []).getD t 0, (mB.getD d []).getD t false), ?_, by simpa using hdt⟩
    unfold msaColumn
    apply List.mem_iff_getElem.2
    refine ⟨d, ?_, ?_⟩
    · rw [List.length_zipWith]
      omega
    · rw [List.getElem_zipWith, List.getD_eq_getElem tB [] (by omega),
        List.getD_eq_getElem mB [] (by omega)]

theorem msaProfileGenerate_getD (n B D T : ℕ) (tokens : Grid ℕ) (mask : Grid Bool)
    (b t : ℕ) (ht : GridDims tokens B D T) (hm : GridDims mask B D T) (hD : 0 < D)
    (hb : b < B) (htT : t < T) :
    ((msaProfileGenerate n tokens mask).getD b []).getD t []
      = profileAt n (msaColumn (tokens.getD b []) (mask.getD b []) t) := by
  unfold msaProfileGenerate
  rw [getD_zipWith_of_lt _ tokens mask b (by rw [ht.1]; exact hb) (by rw [hm.1]; exact hb)
    [] [] []]
  have hlen : ((tokens.getD b []).headD []).length = T := by
    apply headD_length_of_rect _ T (gridDims_rows ht hb)
    rw [gridDims_row_len ht hb]
    omega
  rw [hlen, getD_map_of_lt _ _ t (by simpa using htT) 0 [], getD_range_of_lt T t htT 0]

/-! ### Claim theorems: MSA profile (C3, C4) -/

set_option maxRecDepth 4000

/-- C3 counterexample: with 256 valid depth-rows all holding residue class 0
at the single token position, the uint8 scatter-add wraps the class-0 bin to
`256 % 256 = 0`, the clamped denominator becomes 1, and the output
distribution sums to 0 even though valid rows exist — refuting the claim
that the sum is 1 whenever at least one row is valid at the position. -/
theorem msaProfile_sum_counterexample :
    ((((msaProfileGenerate 2 [List.replicate 256 [0]] [List.replicate 256 [true]]).getD
        0 []).getD 0 []).sum = 0)
    ∧ gridGet [List.replicate 256 [true]] 0 0 0 false = true
    ∧ ((0 : ℚ) ≠ 1) := by
  refine ⟨?_, by decide, by norm_num⟩
  have hdt : GridDims [List.replicate 256 [(0 : ℕ)]] 1 256 1 := by decide
  have hdm : GridDims [List.replicate 256 [true]] 1 256 1 := by decide
  rw [msaProfileGenerate_getD 2 1 256 1 _ _ 0 0 hdt hdm (by norm_num) (by norm_num)
    (by norm_num)]
  have hbins : profileBins 2 (msaColumn (([List.replicate 256 [(0 : ℕ)]] :
      Grid ℕ).getD 0 []) (([List.replicate 256 [true]] : Grid Bool).getD 0 []) 0)
      = [0, 0] := by decide
  unfold profileAt
  rw [hbins]
  norm_num

/-- C3 amended: at every token position where the number of valid depth-rows
is at most 255 (so the uint8 scatter-add does not wrap), the output
distribution sums to 1 if at least one depth-row is valid there and to 0
(the all-zero distribution, no NaN possible) otherwise; every entry of the
output is non-negative. -/
theorem msaProfile_sum_amended :
    ∀ (n B D T : ℕ) (tokens : Grid ℕ) (mask : Grid Bool) (b t : ℕ),
      GridDims tokens B D T → GridDims mask B D T → 0 < D → b < B → t < T →
      (∀ x ∈ tokens, ∀ r ∈ x, ∀ c ∈ r, c < n) →
      (msaColumn (tokens.getD b []) (mask.getD b []) t).countP (fun p => p.2) ≤ 255 →
      ((((msaProfileGenerate n tokens mask).getD b []).getD t []).sum
          = if ∃ d ∈ List.range D, gridGet mask b d t false = true then 1 else 0)
      ∧ ∀ q ∈ ((msaProfileGenerate n tokens mask).getD b []).getD t [], 0 ≤ q := by
  intro n B D T tokens mask b t ht hm hD hb htT hvoc h255
  rw [msaProfileGenerate_getD n B D T tokens mask b t ht hm hD hb htT]
  have hbl : b < tokens.length := by rw [ht.1]; exact hb
  have hmemB : tokens.getD b [] ∈ tokens := by
    rw [List.getD_eq_getElem _ [] hbl]
    exact List.getElem_mem hbl
  have hcolvoc : ∀ p ∈ msaColumn (tokens.getD b []) (mask.getD b []) t,
      p.2 = true → p.1 < n :=
    msaColumn_vocab _ _ t (gridDims_rows ht hb) htT (fun r hr => hvoc _ hmemB r hr)
  constructor
  · rw [profileAt_sum_eq n _ hcolvoc h255]
    have hiff : (0 < (msaColumn (tokens.getD b []) (mask.getD b []) t).countP
        (fun p => p.2)) ↔ (∃ d ∈ List.range D, gridGet mask b d t false = true) := by
      rw [countP_msaColumn_pos_iff _ _ t D (gridDims_row_len ht hb) (gridDims_row_len hm hb)]
      constructor
      · rintro ⟨d, hd, hdt⟩
        exact ⟨d, List.mem_range.2 hd, hdt⟩
      · rintro ⟨d, hd, hdt⟩
        exact ⟨d, List.mem_range.1 hd, hdt⟩
    exact if_congr hiff rfl rfl
  · exact profileAt_nonneg n _

theorem msaProfile_sum_amended_witness :
    ((((msaProfileGenerate 2 [[[0]]] [[[true]]]).getD 0 []).getD 0 []).sum
        = if ∃ d ∈ List.range 1, gridGet [[[true]]] 0 d 0 false = true then 1 else 0)
    ∧ ∀ q ∈ ((msaProfileGenerate 2 [[[0]]] [[[true]]]).getD 0 []).getD 0 [], 0 ≤ q :=
  msaProfile_sum_amended 2 1 1 1 [[[0]]] [[[true]]] 0 0 (by decide) (by decide)
    (by decide) (by decide) (by decide) (by decide) (by decide)

/-- C4 counterexample: with 256 valid depth-rows at one position, split as
128 rows of class 0 and 128 of class 1, neither uint8 bin wraps (128 < 256)
and the torch-promoted int64 denominator is the exact 256 — so the output
equals the true mask-weighted distribution even though more than 255 valid
rows contribute, refuting both the "only under at most 255 valid rows" part
and the "denominator wraps modulo 256" part of the claim (a wrapped
denominator would be `256 % 256 = 0`, clamped to 1, leaving the bins
unnormalized instead of summing to 1). -/
theorem msaProfile_uint8_counterexample :
    (((msaProfileGenerate 2 [List.replicate 128 [0] ++ List.replicate 128 [1]]
        [List.replicate 256 [true]]).getD 0 []).getD 0 []
      = trueProfileAt 2 (msaColumn (List.replicate 128 [0] ++ List.replicate 128 [1])
          (List.replicate 256 [true]) 0))
    ∧ (msaColumn (List.replicate 128 [0] ++ List.replicate 128 [1])
        (List.replicate 256 [true]) 0).countP (fun p => p.2) = 256 := by
  refine ⟨?_, by decide⟩
  have hdt : GridDims [List.replicate 128 [(0 : ℕ)] ++ List.replicate 128 [1]] 1 256 1 := by
    decide
  have hdm : GridDims [List.replicate 256 [true]] 1 256 1 := by decide
  rw [msaProfileGenerate_getD 2 1 256 1 _ _ 0 0 hdt hdm (by norm_num) (by norm_num)
    (by norm_num)]
  have hbins : profileBins 2 (msaColumn (([List.replicate 128 [(0 : ℕ)] ++
      List.replicate 128 [1]] : Grid ℕ).getD 0 [])
      (([List.replicate 256 [true]] : Grid Bool).getD 0 []) 0) = [128, 128] := by decide
  have htbins : trueProfileBins 2 (msaColumn (List.replicate 128 [(0 : ℕ)] ++
      List.replicate 128 [1]) (List.replicate 256 [true]) 0) = [128, 128] := by decide
  show profileAt 2 _ = trueProfileAt 2 _
  unfold profileAt trueProfileAt
  rw [hbins, htbins]

/-- C4 amended: the per-class counts are accumulated in the uint8 dtype of
the input token tensor and wrap modulo 256, while the normalization
denominator is the exact (int64-promoted) sum of the wrapped bins; as a
consequence, at most 255 valid rows contributing to a token position is a
sufficient condition for the output there to equal the true mask-weighted
residue-class count distribution normalized by the clamp-at-1 total. -/
theorem msaProfile_uint8_amended :
    ∀ (n B D T : ℕ) (tokens : Grid ℕ) (mask : Grid Bool) (b t : ℕ),
      GridDims tokens B D T → GridDims mask B D T → 0 < D → b < B → t < T →
      (msaColumn (tokens.getD b []) (mask.getD b []) t).countP (fun p => p.2) ≤ 255 →
      ((msaProfileGenerate n tokens mask).getD b []).getD t []
        = trueProfileAt n (msaColumn (tokens.getD b []) (mask.getD b []) t) := by
  intro n B D T tokens mask b t ht hm hD hb htT h255
  rw [msaProfileGenerate_getD n B D T tokens mask b t ht hm hD hb htT]
  exact profileAt_eq_trueProfileAt n _ h255

theorem msaProfile_uint8_amended_witness :
    ((msaProfileGenerate 2 [[[0]]] [[[true]]]).getD 0 []).getD 0 []
      = trueProfileAt 2 (msaColumn (([[[0]]] : Grid ℕ).getD 0 [])
          (([[[true]]] : Grid Bool).getD 0 []) 0) :=
  msaProfile_uint8_amended 2 1 1 1 [[[0]]] [[[true]]] 0 0 (by decide) (by decide)
    (by decide) (by decide) (by decide) (by decide)

/-! ### Claim theorems: deletion mean (C6) -/

theorem msaDeletionMeanGenerate_getD (B D T : ℕ) (mask : Grid Bool) (del : Grid ℕ)
    (b t : ℕ) (hm : GridDims mask B D T) (hd : GridDims del B D T) (hD : 0 < D)
    (hb : b < B) (htT : t < T) :
    ((msaDeletionMeanGenerate mask del).getD b []).getD t []
      = [masked_mean (delColumn (mask.getD b []) (del.getD b []) t)] := by
  unfold msaDeletionMeanGenerate
  rw [getD_zipWith_of_lt _ mask del b (by rw [hm.1]; exact hb) (by rw [hd.1]; exact hb)
    [] [] []]
  have hlen : ((mask.getD b []).headD []).length = T := by
    apply headD_length_of_rect _ T (gridDims_rows hm hb)
    rw [gridDims_row_len hm hb]
    omega
  rw [hlen, getD_map_of_lt _ _ t (by simpa using htT) 0 [], getD_range_of_lt T t htT 0]

/-- C6: the output of `MSADeletionMeanGenerator._generate` at each token
position is the masked mean of deletion counts across the depth dimension —
the sum of mask-weighted deletion counts divided by the number of valid
rows when at least one row is valid — and at a position where all rows are
invalid the output is exactly 0 (no NaN or infinity can arise since the
shared `masked_mean` utility floors the denominator at 1). -/
theorem msaDeletionMean_masked_mean_spec :
    ∀ (B D T : ℕ) (mask : Grid Bool) (del : Grid ℕ) (b t : ℕ),
      GridDims mask B D T → GridDims del B D T → 0 < D → b < B → t < T →
      ((0 < (delColumn (mask.getD b []) (del.getD b []) t).countP (fun p => p.1) →
        ((msaDeletionMeanGenerate mask del).getD b []).getD t []
          = [((delColumn (mask.getD b []) (del.getD b []) t).map
                (fun (p : Bool × ℕ) => if p.1 then (p.2 : ℚ) else 0)).sum
              / (((delColumn (mask.getD b []) (del.getD b []) t).countP
                  (fun p => p.1) : ℕ) : ℚ)])
      ∧ ((delColumn (mask.getD b []) (del.getD b []) t).countP (fun p => p.1) = 0 →
        ((msaDeletionMeanGenerate mask del).getD b []).getD t [] = [0])) := by
  intro B D T mask del b t hm hd hD hb htT
  rw [msaDeletionMeanGenerate_getD B D T mask del b t hm hd hD hb htT]
  constructor
  · intro hpos
    unfold masked_mean
    have hmax : max ((delColumn (mask.getD b []) (del.getD b []) t).countP
        (fun p => p.1)) 1
        = (delColumn (mask.getD b []) (del.getD b []) t).countP (fun p => p.1) := by
      omega
    rw [hmax]
  · intro hz
    unfold masked_mean
    have hall : ∀ p ∈ delColumn (mask.getD b []) (del.getD b []) t, p.1 = false := by
      intro p hp
      have hnp := List.countP_eq_zero.1 hz p hp
      simpa using hnp
    have hnum : ((delColumn (mask.getD b []) (del.getD b []) t).map
        (fun (p : Bool × ℕ) => if p.1 then (p.2 : ℚ) else 0)).sum = 0 := by
      apply List.sum_eq_zero
      intro x hx
      obtain ⟨p, hp, rfl⟩ := List.mem_map.1 hx
      rw [hall p hp]
      simp
    rw [hnum, hz]
    norm_num

theorem msaDeletionMean_masked_mean_spec_witness :
    ((msaDeletionMeanGenerate [[[true]]] [[[4]]]).getD 0 []).getD 0 [] = [(4 : ℚ)] := by
  have h := msaDeletionMean_masked_mean_spec 1 1 1 [[[true]]] [[[4]]] 0 0
    (by decide) (by decide) (by decide) (by decide) (by decide)
  have h1 := h.1 (by decide)
  rw [h1]
  norm_num [delColumn]

/-! ### Helper lemmas for the arctan deletion scaling -/

theorem arctan_pos_of_pos {x : ℝ} (hx : 0 < x) : 0 < Real.arctan x := by
  have := Real.arctan_strictMono hx
  rwa [Real.arctan_zero] at this

theorem arctan_lt_self_of_pos {x : ℝ} (hx : 0 < x) : Real.arctan x < x := by
  have h1 : 0 < Real.arctan x := arctan_pos_of_pos hx
  have h2 : Real.arctan x < Real.pi / 2 := Real.arctan_lt_pi_div_two x
  have h3 := Real.lt_tan h1 h2
  rwa [Real.tan_arctan] at h3

theorem sin_arctan_lt_arctan {x : ℝ} (hx : 0 < x) :
    x / Real.sqrt (1 + x ^ 2) < Real.arctan x := by
  have h1 : 0 < Real.arctan x := arctan_pos_of_pos hx
  have h2 := Real.sin_lt h1
  rwa [Real.sin_arctan] at h2

theorem deletionScale_zero : deletionScale 0 = 0 := by
  unfold deletionScale
  rw [show (0 : ℝ) / 3 = 0 by norm_num, Real.arctan_zero, mul_zero]

theorem deletionScale_three : deletionScale 3 = 1 / 2 := by
  unfold deletionScale
  rw [show (3 : ℝ) / 3 = 1 by norm_num, Real.arctan_one]
  have hπ : Real.pi ≠ 0 := Real.pi_ne_zero
  field_simp
  ring

theorem deletionScale_strictMono : StrictMono deletionScale := by
  intro a b hab
  unfold deletionScale
  have h1 : (0 : ℝ) < 2 / Real.pi := by positivity
  exact mul_lt_mul_of_pos_left (Real.arctan_strictMono (by linarith)) h1

theorem deletionScale_mem_Ico {x : ℝ} (hx : 0 ≤ x) :
    deletionScale x ∈ Set.Ico (0 : ℝ) 1 := by
  unfold deletionScale
  constructor
  · apply mul_nonneg (by positivity)
    have h0 : Real.arctan 0 ≤ Real.arctan (x / 3) :=
      Real.arctan_strictMono.monotone (by linarith)
    rwa [Real.arctan_zero] at h0
  · have h2 : Real.arctan (x / 3) < Real.pi / 2 := Real.arctan_lt_pi_div_two _
    have h3 : (0 : ℝ) < 2 / Real.pi := by positivity
    calc 2 / Real.pi * Real.arctan (x / 3)
        < 2 / Real.pi * (Real.pi / 2) := mul_lt_mul_of_pos_left h2 h3
      _ = 1 := by field_simp

theorem arctan_five_thirds_eq :
    Real.arctan ((5 : ℝ) / 3) = Real.pi / 2 - Real.arctan (3 / 5) := by
  have h5 : (0 : ℝ) < 5 / 3 := by norm_num
  have h := Real.arctan_inv_of_pos h5
  rw [show ((5 : ℝ) / 3)⁻¹ = 3 / 5 by norm_num] at h
  linarith

theorem arctan_three_fifths_lt : Real.arctan ((3 : ℝ) / 5) < 3 / 5 :=
  arctan_lt_self_of_pos (by norm_num)

theorem arctan_three_fifths_gt : (0.5144 : ℝ) < Real.arctan (3 / 5) := by
  have h := sin_arctan_lt_arctan (x := 3 / 5) (by norm_num)
  have hs : Real.sqrt (1 + ((3 : ℝ) / 5) ^ 2) < 1.1662 := by
    rw [show (1 + ((3 : ℝ) / 5) ^ 2 : ℝ) = 1.36 by norm_num]
    rw [Real.sqrt_lt' (by norm_num : (0 : ℝ) < 1.1662)]
    norm_num
  have hpos : 0 < Real.sqrt (1 + ((3 : ℝ) / 5) ^ 2) := Real.sqrt_pos.2 (by norm_num)
  have hlb : ((3 : ℝ) / 5) / 1.1662 < ((3 : ℝ) / 5) / Real.sqrt (1 + ((3 : ℝ) / 5) ^ 2) :=
    div_lt_div_of_pos_left (by norm_num) hpos hs
  have hq : (0.5144 : ℝ) < ((3 : ℝ) / 5) / 1.1662 := by norm_num
  linarith

theorem arctan_one_third_lt : Real.arctan ((1 : ℝ) / 3) < 1 / 3 :=
  arctan_lt_self_of_pos (by norm_num)

theorem arctan_one_third_gt : (0.3158 : ℝ) < Real.arctan ((1 : ℝ) / 3) := by
  have h := sin_arctan_lt_arctan (x := 1 / 3) (by norm_num)
  have hs : Real.sqrt (1 + ((1 : ℝ) / 3) ^ 2) < 1.0555 := by
    rw [show (1 + ((1 : ℝ) / 3) ^ 2 : ℝ) = 10 / 9 by norm_num]
    rw [Real.sqrt_lt' (by norm_num : (0 : ℝ) < 1.0555)]
    norm_num
  have hpos : 0 < Real.sqrt (1 + ((1 : ℝ) / 3) ^ 2) := Real.sqrt_pos.2 (by norm_num)
  have hlb : ((1 : ℝ) / 3) / 1.0555 < ((1 : ℝ) / 3) / Real.sqrt (1 + ((1 : ℝ) / 3) ^ 2) :=
    div_lt_div_of_pos_left (by norm_num) hpos hs
  have hq : (0.3158 : ℝ) < ((1 : ℝ) / 3) / 1.0555 := by norm_num
  linarith

theorem deletionScale_five_bounds :
    (0.618 : ℝ) < deletionScale 5 ∧ deletionScale 5 < 0.673 := by
  have hpi1 : (3.141592 : ℝ) < Real.pi := Real.pi_gt_d6
  have hpi2 : Real.pi < 3.141593 := Real.pi_lt_d6
  have hpos : (0 : ℝ) < Real.pi := Real.pi_pos
  unfold deletionScale
  rw [arctan_five_thirds_eq]
  have hexp : 2 / Real.pi * (Real.pi / 2 - Real.arctan (3 / 5))
      = 1 - 2 * Real.arctan (3 / 5) / Real.pi := by
    field_simp
    ring
  rw [hexp]
  constructor
  · have h1 : 2 * Real.arctan (3 / 5) / Real.pi < 0.382 := by
      rw [div_lt_iff₀ hpos]
      have := arctan_three_fifths_lt
      nlinarith
    linarith
  · have h2 : (0.327 : ℝ) < 2 * Real.arctan (3 / 5) / Real.pi := by
      rw [lt_div_iff₀ hpos]
      have := arctan_three_fifths_gt
      nlinarith
    linarith

theorem deletionScale_one_bounds :
    (0.201 : ℝ) < deletionScale 1 ∧ deletionScale 1 < 0.2123 := by
  have hpi1 : (3.141592 : ℝ) < Real.pi := Real.pi_gt_d6
  have hpi2 : Real.pi < 3.141593 := Real.pi_lt_d6
  have hpos : (0 : ℝ) < Real.pi := Real.pi_pos
  unfold deletionScale
  have hexp : 2 / Real.pi * Real.arctan ((1 : ℝ) / 3)
      = 2 * Real.arctan ((1 : ℝ) / 3) / Real.pi := by
    ring
  rw [hexp]
  constructor
  · rw [lt_div_iff₀ hpos]
    have := arctan_one_third_gt
    nlinarith
  · rw [div_lt_iff₀ hpos]
    have := arctan_one_third_lt
    nlinarith

/-! ### Claim theorems: deletion value scaling (C5) and scenario (C7) -/

/-- C5: the deletion-value feature applies `scale(d) = (2/π)·arctan(d/3)`
elementwise to the float-converted deletion counts with a trailing singleton
dimension, and `scale` satisfies `scale(0) = 0`, `scale(3) = 1/2`, is
strictly increasing, and maps every non-negative `d` into `[0, 1)`. -/
theorem msaDeletionValue_scale_spec :
    (∀ (g : Grid ℕ) (B D T b d t : ℕ), GridDims g B D T → b < B → d < D → t < T →
        gridGet (msaDeletionValueGenerate g) b d t []
          = [deletionScale ((gridGet g b d t 0 : ℕ) : ℝ)])
    ∧ deletionScale 0 = 0
    ∧ deletionScale 3 = 1 / 2
    ∧ StrictMono deletionScale
    ∧ (∀ x : ℝ, 0 ≤ x → deletionScale x ∈ Set.Ico (0 : ℝ) 1) := by
  refine ⟨?_, deletionScale_zero, deletionScale_three, deletionScale_strictMono,
    fun x hx => deletionScale_mem_Ico hx⟩
  intro g B D T b d t hg hb hd ht
  unfold msaDeletionValueGenerate
  rw [gridGet_gridMap _ g B D T b d t hg hb hd ht 0 []]

theorem msaDeletionValue_scale_spec_witness :
    (gridGet (msaDeletionValueGenerate [[[2]]]) 0 0 0 []
        = [deletionScale ((gridGet ([[[2]]] : Grid ℕ) 0 0 0 0 : ℕ) : ℝ)])
    ∧ deletionScale 0 < deletionScale 3
    ∧ deletionScale 1 ∈ Set.Ico (0 : ℝ) 1 :=
  ⟨msaDeletionValue_scale_spec.1 [[[2]]] 1 1 1 0 0 0 (by decide) (by decide) (by decide)
      (by decide),
    msaDeletionValue_scale_spec.2.2.2.1 (by norm_num),
    msaDeletionValue_scale_spec.2.2.2.2 1 (by norm_num)⟩

/-- C7 counterexample: the scenario's scaled deletion-value at `d = 5` is
`scale(5) = (2/π)·arctan(5/3) > 3/5`, which is more than `0.079` above the
claimed value `0.5206` — so the claimed row-0 scaled feature
`≈ [0.1949, 0, 0.5206]` is wrong at the third entry (the true values are
`≈ [0.2048, 0, 0.6560]`). -/
theorem msaDeletionValue_scenario_counterexample :
    gridGet (msaDeletionValueGenerate [[[1, 0, 5], [0, 0, 0]]]) 0 0 2 []
      = [deletionScale ((5 : ℕ) : ℝ)]
    ∧ (3 : ℝ) / 5 < deletionScale ((5 : ℕ) : ℝ)
    ∧ (0.5206 : ℝ) + 0.079 < 3 / 5 := by
  refine ⟨rfl, ?_, by norm_num⟩
  rw [show (((5 : ℕ) : ℝ)) = 5 by norm_num]
  have h := deletionScale_five_bounds.1
  linarith

/-- C7 amended: the has-deletion feature equals elementwise `count > 0` with
a trailing singleton dimension; on the scenario input
`[[1,0,5],[0,0,0]]` it is `[[T,F,T],[F,F,F]]` and the scaled deletion-value
feature's row 0 is approximately `[0.2048, 0, 0.6560]` (each entry within
`1/25` of those values; the middle entry is exactly 0). -/
theorem msaHasDeletion_scenario_amended :
    (∀ (g : Grid ℕ) (B D T b d t : ℕ), GridDims g B D T → b < B → d < D → t < T →
        gridGet (msaHasDeletionGenerate g) b d t []
          = [decide (gridGet g b d t 0 > 0)])
    ∧ msaHasDeletionGenerate [[[1, 0, 5], [0, 0, 0]]]
        = [[[[true], [false], [true]], [[false], [false], [false]]]]
    ∧ gridGet (msaDeletionValueGenerate [[[1, 0, 5], [0, 0, 0]]]) 0 0 0 []
        = [deletionScale ((1 : ℕ) : ℝ)]
    ∧ |deletionScale ((1 : ℕ) : ℝ) - 0.2048| < 1 / 25
    ∧ gridGet (msaDeletionValueGenerate [[[1, 0, 5], [0, 0, 0]]]) 0 0 1 []
        = [deletionScale ((0 : ℕ) : ℝ)]
    ∧ deletionScale ((0 : ℕ) : ℝ) = 0
    ∧ gridGet (msaDeletionValueGenerate [[[1, 0, 5], [0, 0, 0]]]) 0 0 2 []
        = [deletionScale ((5 : ℕ) : ℝ)]
    ∧ |deletionScale ((5 : ℕ) : ℝ) - 0.656| < 1 / 25 := by
  refine ⟨?_, by decide, rfl, ?_, rfl, ?_, rfl, ?_⟩
  · intro g B D T b d t hg hb hd ht
    unfold msaHasDeletionGenerate
    rw [gridGet_gridMap _ g B D T b d t hg hb hd ht 0 []]
  · rw [show (((1 : ℕ) : ℝ)) = 1 by norm_num, abs_lt]
    have h1 := deletionScale_one_bounds.1
    have h2 := deletionScale_one_bounds.2
    constructor <;> linarith
  · rw [show (((0 : ℕ) : ℝ)) = 0 by norm_num]
    exact deletionScale_zero
  · rw [show (((5 : ℕ) : ℝ)) = 5 by norm_num, abs_lt]
    have h1 := deletionScale_five_bounds.1
    have h2 := deletionScale_five_bounds.2
    constructor <;> linarith

theorem msaHasDeletion_scenario_amended_witness :
    gridGet (msaHasDeletionGenerate [[[2]]]) 0 0 0 []
      = [decide (gridGet ([[[2]]] : Grid ℕ) 0 0 0 0 > 0)] :=
  msaHasDeletion_scenario_amended.1 [[[2]]] 1 1 1 0 0 0 (by decide) (by decide)
    (by decide) (by decide)

/-! ### Helper lemmas for output shapes (C9) -/

theorem mem_zipWith_exists {α β γ : Type} {f : α → β → γ} {l1 : List α} {l2 : List β}
    {x : γ} (hx : x ∈ List.zipWith f l1 l2) :
    ∃ (i : ℕ) (h1 : i < l1.length) (h2 : i < l2.length), x = f (l1[i]) (l2[i]) := by
  obtain ⟨i, hi, hix⟩ := List.mem_iff_getElem.1 hx
  rw [List.length_zipWith] at hi
  refine ⟨i, by omega, by omega, ?_⟩
  rw [← hix, List.getElem_zipWith]

theorem gridMap_dims {α β : Type} (f : α → β) (g : Grid α) {B D T : ℕ}
    (h : GridDims g B D T) : GridDims (gridMap f g) B D T := by
  obtain ⟨h1, h2⟩ := h
  refine ⟨by simpa [gridMap] using h1, ?_⟩
  intro x hx
  obtain ⟨x0, hx0, rfl⟩ := List.mem_map.1 hx
  obtain ⟨hl, hrow⟩ := h2 x0 hx0
  refine ⟨by simpa using hl, ?_⟩
  intro r hr
  obtain ⟨r0, hr0, rfl⟩ := List.mem_map.1 hr
  simpa using hrow r0 hr0

theorem gridZipWith_dims {α β γ : Type} (f : α → β → γ) (ga : Grid α) (gb : Grid β)
    {B D T : ℕ} (hga : GridDims ga B D T) (hgb : GridDims gb B D T) :
    GridDims (gridZipWith f ga gb) B D T := by
  constructor
  · unfold gridZipWith
    rw [List.length_zipWith, hga.1, hgb.1, min_self]
  · intro x hx
    unfold gridZipWith at hx
    obtain ⟨i, h1, h2, rfl⟩ := mem_zipWith_exists hx
    have hga_i := hga.2 _ (List.getElem_mem h1)
    have hgb_i := hgb.2 _ (List.getElem_mem h2)
    constructor
    · rw [List.length_zipWith, hga_i.1, hgb_i.1, min_self]
    · intro r hr
      obtain ⟨j, hj1, hj2, rfl⟩ := mem_zipWith_exists hr
      rw [List.length_zipWith, hga_i.2 _ (List.getElem_mem hj1),
        hgb_i.2 _ (List.getElem_mem hj2), min_self]

theorem msaProfileGenerate_dims (n B D T : ℕ) (tokens : Grid ℕ) (mask : Grid Bool)
    (ht : GridDims tokens B D T) (hm : GridDims mask B D T) (hD : 0 < D) :
    TableDims (msaProfileGenerate n tokens mask) B T := by
  constructor
  · unfold msaProfileGenerate
    rw [List.length_zipWith, ht.1, hm.1, min_self]
  · intro x hx
    unfold msaProfileGenerate at hx
    obtain ⟨i, h1, h2, rfl⟩ := mem_zipWith_exists hx
    simp only [List.length_map, List.length_range]
    apply headD_length_of_rect _ T ((ht.2 _ (List.getElem_mem h1)).2)
    rw [(ht.2 _ (List.getElem_mem h1)).1]
    omega

theorem msaDeletionMeanGenerate_dims (B D T : ℕ) (mask : Grid Bool) (del : Grid ℕ)
    (hm : GridDims mask B D T) (hd : GridDims del B D T) (hD : 0 < D) :
    TableDims (msaDeletionMeanGenerate mask del) B T := by
  constructor
  · unfold msaDeletionMeanGenerate
    rw [List.length_zipWith, hm.1, hd.1, min_self]
  · intro x hx
    unfold msaDeletionMeanGenerate at hx
    obtain ⟨i, h1, h2, rfl⟩ := mem_zipWith_exists hx
    simp only [List.length_map, List.length_range]
    apply headD_length_of_rect _ T ((hm.2 _ (List.getElem_mem h1)).2)
    rw [(hm.2 _ (List.getElem_mem h1)).1]
    omega

theorem isPairedMSAGenerate_dims (mask : Grid Bool) (species : Grid ℤ) (u : ℤ)
    (B D T : ℕ) (hm : GridDims mask B D T) (hs : GridDims species B D T) :
    GridDims (isPairedMSAGenerate mask species u) B D T := by
  constructor
  · unfold isPairedMSAGenerate
    rw [List.length_zipWith, hm.1, hs.1, min_self]
  · intro x hx
    unfold isPairedMSAGenerate at hx
    obtain ⟨i, h1, h2, rfl⟩ := mem_zipWith_exists hx
    have hmi := hm.2 _ (List.getElem_mem h1)
    have hsi := hs.2 _ (List.getElem_mem h2)
    constructor
    · rw [List.length_zipWith, hmi.1, hsi.1, min_self]
    · intro r hr
      obtain ⟨j, hj1, hj2, rfl⟩ := mem_zipWith_exists hr
      rw [List.length_zipWith, hmi.2 _ (List.getElem_mem hj1),
        hsi.2 _ (List.getElem_mem hj2), min_self]

/-! ### Claim theorem: output shapes (C9) -/

/-- C9: for shape-consistent (rectangular, depth-nonempty) inputs, every
generator's output keeps the leading `[batch, depth, tokens]` dimensions of
its inputs, while the TOKEN-level generators (profile and deletion-mean)
collapse exactly the depth dimension, producing `[batch, tokens, ...]`. -/
theorem generators_output_dims :
    ∀ (B D T n : ℕ) (tok del src : Grid ℕ) (species : Grid ℤ) (mask : Grid Bool)
      (unknown : ℤ),
      GridDims tok B D T → GridDims del B D T → GridDims src B D T →
      GridDims species B D T → GridDims mask B D T → 0 < D →
      GridDims (msaFeatureGenerate tok) B D T
      ∧ GridDims (msaHasDeletionGenerate del) B D T
      ∧ GridDims (msaDeletionValueGenerate del) B D T
      ∧ TableDims (msaProfileGenerate n tok mask) B T
      ∧ TableDims (msaDeletionMeanGenerate mask del) B T
      ∧ GridDims (isPairedMSAGenerate mask species unknown) B D T
      ∧ GridDims (msaDataSourceGenerate n mask src) B D T := by
  intro B D T n tok del src species mask unknown htok hdel hsrc hsp hmask hD
  exact ⟨gridMap_dims _ _ htok, gridMap_dims _ _ hdel, gridMap_dims _ _ hdel,
    msaProfileGenerate_dims n B D T tok mask htok hmask hD,
    msaDeletionMeanGenerate_dims B D T mask del hmask hdel hD,
    isPairedMSAGenerate_dims mask species unknown B D T hmask hsp,
    gridZipWith_dims _ mask src hmask hsrc⟩

theorem generators_output_dims_witness :
    GridDims (msaFeatureGenerate [[[7]]]) 1 1 1
    ∧ GridDims (msaHasDeletionGenerate [[[3]]]) 1 1 1
    ∧ GridDims (msaDeletionValueGenerate [[[3]]]) 1 1 1
    ∧ TableDims (msaProfileGenerate 5 [[[7]]] [[[true]]]) 1 1
    ∧ TableDims (msaDeletionMeanGenerate [[[true]]] [[[3]]]) 1 1
    ∧ GridDims (isPairedMSAGenerate [[[true]]] [[[9]]] 0) 1 1 1
    ∧ GridDims (msaDataSourceGenerate 5 [[[true]]] [[[2]]]) 1 1 1 :=
  generators_output_dims 1 1 1 5 [[[7]]] [[[3]]] [[[2]]] [[[9]]] [[[true]]] 0
    (by decide) (by decide) (by decide) (by decide) (by decide) (by decide)
